import Mathlib

namespace InterviewTrainer

/-!
Verification of the AI Interview Trainer application.

This file gives a shallow embedding, in Lean, of the logic of the
repository (a browser-based mock-interview trainer written in
TypeScript/React) and proves properties of that logic.

The embedding covers:
* the rate-limit retry wrapper `generateContentWithRetry`;
* the audio helpers `decode` and `decodeAudioData`;
* the InterviewScreen status machine and its handlers
  (`startInterview`, `speakText`, `handleToggleRecording`,
  `handleAnswerSubmit`, `handleEndInterview`, recognition callbacks);
* the top-level App state machine and its selection handlers;
* the FeedbackScreen `handleSave` persistence step.

External effects (AI responses, speech recognition results, microphone
access) are modelled as explicit inputs to the embedded functions.
-/

/-! ## Substring test (model of JavaScript String.prototype.includes) -/

/-- Model of checking whether a list begins with the pattern list. -/
def startsWithL : List Char → List Char → Bool
  | _, [] => true
  | [], _ :: _ => false
  | a :: as, b :: bs => a = b && startsWithL as bs

/-- Model of JavaScript includes: the pattern occurs somewhere in the
haystack. -/
def hasSub : List Char → List Char → Bool
  | [], pat => pat.isEmpty
  | h :: t, pat => startsWithL (h :: t) pat || hasSub t pat

/-- Substring test on strings, as JavaScript includes. -/
def strIncludes (hay pat : String) : Bool :=
  hasSub hay.data pat.data

/-! ## The retry wrapper generateContentWithRetry

Source: src/unnamed/part_000, lines 28-60.  The loop makes calls to
`ai.models.generateContent`; each call either returns a response or
throws an error.  We model the environment as a function `outcomes`
giving the outcome of the i-th call made (0-based). -/

/-- Outcome of one call to ai.models.generateContent: either a
response value or a thrown error, whose string form we record. -/
inductive CallOutcome (ρ : Type) where
  | success (v : ρ)
  | failure (errorString : String)
deriving DecidableEq

/-- The rate-limit test from the source: the error string contains
429 or RESOURCE_EXHAUSTED. -/
def isRateLimitError (errorString : String) : Bool :=
  strIncludes errorString "429" || strIncludes errorString "RESOURCE_EXHAUSTED"

/-- MAX_RETRIES constant from the source. -/
def MAX_RETRIES : Nat := 3

/-- INITIAL_DELAY_MS constant from the source. -/
def INITIAL_DELAY_MS : Nat := 1000

/-- Result of running generateContentWithRetry: either a returned
response or a rethrown error string, together with the number of calls
made and the list of delays (in ms) slept between calls. -/
structure RetryRun (ρ : Type) where
  result : CallOutcome ρ
  calls : Nat
  delays : List Nat
deriving DecidableEq

/-- One iteration structure of the while loop of
generateContentWithRetry.  The counter `attempt` counts rate-limited
failures so far; since every previous iteration that did not exit the
function incremented `attempt` exactly once, the outcome of the call
made in the current iteration is `outcomes attempt`.  The fuel
argument equals MAX_RETRIES - attempt, so fuel = 0 is exactly the
loop guard attempt < MAX_RETRIES becoming false, where the source
throws its fallback Error. -/
def retryAux {ρ : Type} (outcomes : Nat → CallOutcome ρ) :
    Nat → Nat → RetryRun ρ
  | _, 0 =>
      ⟨.failure "generateContentWithRetry failed after all attempts.", 0, []⟩
  | attempt, fuel + 1 =>
      match outcomes attempt with
      | .success v => ⟨.success v, 1, []⟩
      | .failure e =>
          if isRateLimitError e then
            if MAX_RETRIES ≤ attempt + 1 then
              ⟨.failure e, 1, []⟩
            else
              let delay := INITIAL_DELAY_MS * 2 ^ (attempt + 1 - 1)
              let rest := retryAux outcomes (attempt + 1) fuel
              ⟨rest.result, rest.calls + 1, delay :: rest.delays⟩
          else
            ⟨.failure e, 1, []⟩

/-- Model of generateContentWithRetry: run the loop from attempt = 0.
Source: src/unnamed/part_000, lines 32-60. -/
def generateContentWithRetry {ρ : Type} (outcomes : Nat → CallOutcome ρ) :
    RetryRun ρ :=
  retryAux outcomes 0 MAX_RETRIES

/-- Whether a call outcome is a rate-limited failure (a thrown error
whose string form contains 429 or RESOURCE_EXHAUSTED). -/
def isRateLimitedOutcome {ρ : Type} : CallOutcome ρ → Bool
  | .success _ => false
  | .failure e => isRateLimitError e

/-- Example outcome sequence: first call rate limited, second call
succeeds with the value 42. -/
def exOutcomes : Nat → CallOutcome Nat
  | 0 => .failure "Error 429 too many requests"
  | 1 => .success 42
  | _ => .failure "unused"

/-! ## Audio helpers decode and decodeAudioData

Source: src/unnamed/part_000, lines 64-91.  The browser primitive
atob (base64 to binary string) is an external collaborator and is
passed in as a function. -/

/-- Model of decode: base64-decode the input with atob, then collect
the character codes of the resulting binary string into a byte array.
Source lines 64-72. -/
def decode (atob : String → List Char) (base64 : String) : List Nat :=
  (atob base64).map Char.toNat

/-- Reinterpretation of two consecutive bytes (little endian) as one
signed 16-bit integer, as the Int16Array view over the byte buffer
does. -/
def toInt16 (lo hi : Nat) : Int :=
  let v := lo + 256 * hi
  if v < 32768 then (v : Int) else (v : Int) - 65536

/-- The Int16Array view of a byte array: consecutive little-endian
pairs of bytes become signed 16-bit values. -/
def int16View : List Nat → List Int
  | lo :: hi :: rest => toInt16 lo hi :: int16View rest
  | _ => []

/-- Model of a Web Audio AudioBuffer: channel count, frame count,
sample rate, and the per-channel sample data.  createBuffer
zero-initialises the channel arrays, and the copy loop of
decodeAudioData writes only indices with channel < numChannels and
frame < frameCount, so out-of-range reads are 0. -/
structure ModelAudioBuffer where
  numberOfChannels : Nat
  frameCount : Nat
  sampleRate : Nat
  getChannelData : Nat → Nat → ℚ

/-- Model of decodeAudioData: view the bytes as interleaved signed
16-bit PCM, with frameCount samples per channel, each sample scaled by
1/32768.  Source lines 74-91. -/
def decodeAudioData (data : List Nat) (sampleRate : Nat)
    (numChannels : Nat) : ModelAudioBuffer :=
  let dataInt16 := int16View data
  let frameCount := dataInt16.length / numChannels
  { numberOfChannels := numChannels
    frameCount := frameCount
    sampleRate := sampleRate
    getChannelData := fun channel i =>
      if channel < numChannels ∧ i < frameCount then
        ((dataInt16.getD (i * numChannels + channel) 0 : ℤ) : ℚ) / 32768
      else 0 }

/-! ## Data model

Source: src/types.ts and the Turn interface of src/unnamed/part_000
(lines 15-21). -/

/-- Speaker tag of a transcript message. -/
inductive Speaker where
  | user
  | ai
deriving DecidableEq

/-- TranscriptMessage from src/types.ts. -/
structure TranscriptMessage where
  id : Int
  speaker : Speaker
  text : String
deriving DecidableEq

/-- Turn from src/unnamed/part_000 lines 15-21: one question with an
optional answer, per-turn feedback and score. -/
structure Turn where
  id : Int
  question : String
  answer : Option String
  feedback : Option String
  score : Option Nat
deriving DecidableEq

/-- InterviewFeedback from src/types.ts. -/
structure InterviewFeedback where
  overallScore : Nat
  strengths : List String
  areasForImprovement : List String
  actionableTips : List String
deriving DecidableEq

/-! ## Transcript assembly in handleEndInterview

Source: src/unnamed/part_000, lines 389-395: a reduce over the turns
that pushes, for each turn, an ai message with the question and, when
the turn has an answer, a user message with the answer. -/

/-- Body of the reduce in handleEndInterview. -/
def pushTurn (acc : List TranscriptMessage) (turn : Turn) :
    List TranscriptMessage :=
  let acc2 := acc ++ [⟨turn.id, Speaker.ai, turn.question⟩]
  match turn.answer with
  | some a => acc2 ++ [⟨turn.id + 1, Speaker.user, a⟩]
  | none => acc2

/-- The final transcript assembled by handleEndInterview. -/
def assembleFinalTranscript (turns : List Turn) : List TranscriptMessage :=
  turns.foldl pushTurn []

/-- The messages contributed by a single turn: the ai question, then
the user answer when present. -/
def turnMessages (turn : Turn) : List TranscriptMessage :=
  ⟨turn.id, Speaker.ai, turn.question⟩ ::
    (match turn.answer with
     | some a => [⟨turn.id + 1, Speaker.user, a⟩]
     | none => [])

/-! ## handleEndInterview and the feedback report

Source: src/unnamed/part_000, lines 385-422.  The feedback request
either yields a parsed InterviewFeedback or fails (request error or
unparsable JSON); in both cases onInterviewEnd is called.  We record
the list of onInterviewEnd invocations, in order. -/

/-- Outcome of the feedback request of handleEndInterview: a parsed
feedback object, or a failure (thrown request error or JSON parse
error). -/
inductive FeedbackRequestOutcome where
  | parsed (f : InterviewFeedback)
  | failed
deriving DecidableEq

/-- The fallback feedback built in the catch branch of
handleEndInterview (source lines 412-417). -/
def fallbackFeedback : InterviewFeedback :=
  { overallScore := 0
    strengths := ["Could not generate feedback."]
    areasForImprovement := ["There was an error analyzing the transcript."]
    actionableTips := ["Please try another interview."] }

/-- Model of handleEndInterview restricted to its calls of
onInterviewEnd: the returned list holds one entry per invocation, in
order, each with the transcript and feedback passed. -/
def handleEndInterviewCalls (turns : List Turn)
    (o : FeedbackRequestOutcome) :
    List (List TranscriptMessage × InterviewFeedback) :=
  let finalTranscript := assembleFinalTranscript turns
  match o with
  | .parsed f => [(finalTranscript, f)]
  | .failed => [(finalTranscript, fallbackFeedback)]

/-! ## FeedbackScreen handleSave

Source: src/components/FeedbackScreen.tsx, lines 38-58.  The stored
value under the key ai-interview-reports is a JSON list of reports;
we model it parsed, with none for an absent key.  The new report is
inserted with unshift, i.e. at the front. -/

/-- A saved report: id, the feedback, the transcript, and the save
timestamp. -/
structure SavedReport where
  id : String
  feedback : InterviewFeedback
  transcript : List TranscriptMessage
  savedAt : String
deriving DecidableEq

/-- Model of a successful handleSave: read the stored list (empty when
absent), build the report from the current feedback, transcript and
timestamp, unshift it onto the list and store the result. -/
def handleSave (feedback : InterviewFeedback)
    (transcript : List TranscriptMessage) (reportId savedAt : String)
    (stored : Option (List SavedReport)) : List SavedReport :=
  let report : SavedReport := ⟨reportId, feedback, transcript, savedAt⟩
  let existingReports := stored.getD []
  report :: existingReports

/-! ## The top-level App state machine

Source: src/unnamed/part_001 (the App component) and src/types.ts.
Each screen receives exactly the handler shown in renderContent, so an
event can only fire in the step whose screen renders it; appStep
returns the state unchanged when the event does not belong to the
current step. -/

/-- LanguageCode from src/types.ts. -/
inductive LanguageCode where
  | enUS
  | mlIN
  | hiIN
  | taIN
  | teIN
  | knIN
deriving DecidableEq

/-- JobRole from src/types.ts. -/
inductive JobRole where
  | softwareEngineer
  | marketingSpecialist
  | dataAnalyst
  | productManager
  | uxDesigner
  | projectManager
  | fullStackDeveloper
  | frontEndDeveloper
  | backEndDeveloper
  | applicationsDeveloper
  | cyberSecurityAnalyst
  | dataScientist
  | aiMlEngineer
  | digitalMarketingSpecialist
  | ecommerceSpecialist
  | cloudEngineer
  | juniorWebDeveloper
  | qaTester
deriving DecidableEq

/-- ExperienceLevel from src/types.ts. -/
inductive ExperienceLevel where
  | entryLevel
  | midCareer
  | senior
deriving DecidableEq

/-- InterviewState from src/types.ts: the step of the top-level
screen flow. -/
inductive InterviewState where
  | welcome
  | languageSelect
  | roleSelect
  | levelSelect
  | inProgress
  | feedback
deriving DecidableEq

/-- The state held by the App component. -/
structure AppState where
  interviewState : InterviewState
  selectedLanguage : Option LanguageCode
  selectedRole : Option JobRole
  selectedLevel : Option ExperienceLevel
  finalTranscript : List TranscriptMessage
  feedback : Option InterviewFeedback
deriving DecidableEq

/-- Initial state of the App component. -/
def initialAppState : AppState :=
  { interviewState := .welcome
    selectedLanguage := none
    selectedRole := none
    selectedLevel := none
    finalTranscript := []
    feedback := none }

/-- handleGetStarted (source part_001). -/
def handleGetStarted (s : AppState) : AppState :=
  { s with interviewState := .languageSelect }

/-- handleLanguageSelect: store the language and advance. -/
def handleLanguageSelect (s : AppState) (l : LanguageCode) : AppState :=
  { s with selectedLanguage := some l, interviewState := .roleSelect }

/-- handleRoleSelect: store the role and advance. -/
def handleRoleSelect (s : AppState) (r : JobRole) : AppState :=
  { s with selectedRole := some r, interviewState := .levelSelect }

/-- handleLevelSelect: store the level and advance. -/
def handleLevelSelect (s : AppState) (v : ExperienceLevel) : AppState :=
  { s with selectedLevel := some v, interviewState := .inProgress }

/-- handleInterviewEnd: store transcript and feedback and advance to
the feedback step. -/
def handleInterviewEnd (s : AppState) (t : List TranscriptMessage)
    (f : InterviewFeedback) : AppState :=
  { s with finalTranscript := t
           feedback := some f
           interviewState := .feedback }

/-- handleRestart: reset every piece of App state. -/
def handleRestart (_ : AppState) : AppState :=
  { interviewState := .welcome
    selectedLanguage := none
    selectedRole := none
    selectedLevel := none
    finalTranscript := []
    feedback := none }

/-- User-or-child-component events the App can receive.  The
renderInProgressFallback event models the guard in renderContent that
sends the state back to language selection when the in-progress
screen would render without a language, role or level. -/
inductive AppEvent where
  | getStarted
  | selectLanguage (l : LanguageCode)
  | selectRole (r : JobRole)
  | selectLevel (v : ExperienceLevel)
  | interviewEnd (t : List TranscriptMessage) (f : InterviewFeedback)
  | cancelInterview
  | restart
  | renderInProgressFallback
deriving DecidableEq

/-- One step of the App: dispatch an event to the handler wired to
the currently rendered screen; events for another screen have no
handler attached and leave the state unchanged. -/
def appStep (s : AppState) (e : AppEvent) : AppState :=
  match s.interviewState, e with
  | .welcome, .getStarted => handleGetStarted s
  | .languageSelect, .selectLanguage l => handleLanguageSelect s l
  | .roleSelect, .selectRole r => handleRoleSelect s r
  | .levelSelect, .selectLevel v => handleLevelSelect s v
  | .inProgress, .interviewEnd t f => handleInterviewEnd s t f
  | .inProgress, .cancelInterview => handleRestart s
  | .feedback, .restart => handleRestart s
  | .inProgress, .renderInProgressFallback =>
      if s.selectedLanguage.isNone || s.selectedRole.isNone ||
          s.selectedLevel.isNone then
        { s with interviewState := .languageSelect }
      else s
  | _, _ => s

/-- Run the App from its initial state over a sequence of events. -/
def runApp (events : List AppEvent) : AppState :=
  events.foldl appStep initialAppState

/-- Invariant of the App state: each selection step can only be
reached with the earlier selections made. -/
def AppInv (s : AppState) : Prop :=
  (s.interviewState = .roleSelect ∨ s.interviewState = .levelSelect ∨
      s.interviewState = .inProgress → s.selectedLanguage.isSome) ∧
  (s.interviewState = .levelSelect ∨ s.interviewState = .inProgress →
      s.selectedRole.isSome) ∧
  (s.interviewState = .inProgress → s.selectedLevel.isSome)

/-! ## The InterviewScreen status machine

Source: src/unnamed/part_000, lines 94-422.  The component status is
one of starting, ai_speaking, waiting_for_user, recording,
processing_answer, finished.  Each step function is modelled by the
sequence of statuses it sets (its status trace), with the outcomes of
the external calls (AI request, speech synthesis, microphone access,
speech recognition) as explicit inputs. -/

/-- InterviewStatus from src/unnamed/part_000 line 23. -/
inductive InterviewStatus where
  | starting
  | aiSpeaking
  | waitingForUser
  | recording
  | processingAnswer
  | finished
deriving DecidableEq

/-- The ECMAScript whitespace and line-terminator code points removed
by String.prototype.trim. -/
def jsWhitespace (c : Char) : Bool :=
  c.toNat = 9 || c.toNat = 10 || c.toNat = 11 || c.toNat = 12 ||
  c.toNat = 13 || c.toNat = 32 || c.toNat = 160 || c.toNat = 5760 ||
  (8192 ≤ c.toNat && c.toNat ≤ 8202) || c.toNat = 8232 ||
  c.toNat = 8233 || c.toNat = 8239 || c.toNat = 8287 ||
  c.toNat = 12288 || c.toNat = 65279

/-- Model of String.prototype.trim: drop whitespace from both ends. -/
def jsTrim (l : List Char) : List Char :=
  ((l.dropWhile jsWhitespace).reverse.dropWhile jsWhitespace).reverse

/-- Outcome of the speakText call: the TTS request returns audio that
plays (waiting_for_user is then set later, by the onended callback),
returns no audio, or throws. -/
inductive SpeakOutcome where
  | audioPlays
  | noAudio
  | speakError
deriving DecidableEq

/-- Status trace of speakText (source lines 175-215): nothing for
empty text, else ai_speaking, then waiting_for_user when no audio
came back or the request failed. -/
def speakTextTrace (text : String) (sp : SpeakOutcome) :
    List InterviewStatus :=
  if text = "" then []
  else
    InterviewStatus.aiSpeaking ::
      (match sp with
       | .audioPlays => []
       | .noAudio => [InterviewStatus.waitingForUser]
       | .speakError => [InterviewStatus.waitingForUser])

/-- Outcome of the first AI request of startInterview: a parsed first
question followed by the speakText outcome, or a failure (request
error or unparsable JSON). -/
inductive StartOutcome where
  | ok (firstQuestion : String) (sp : SpeakOutcome)
  | startError
deriving DecidableEq

/-- Status trace of startInterview (source lines 217-243):
processing_answer on entry, then the speakText trace, or finished on
error. -/
def startInterviewTrace : StartOutcome → List InterviewStatus
  | .ok q sp => InterviewStatus.processingAnswer :: speakTextTrace q sp
  | .startError =>
      [InterviewStatus.processingAnswer, InterviewStatus.finished]

/-- Status trace of handleToggleRecording (source lines 308-382):
from recording it only calls recognition.stop (the status changes
later, in the recognition callbacks); from waiting_for_user it sets
recording when microphone access succeeds; in any other status the
button does nothing. -/
def toggleRecordingTrace (status : InterviewStatus) (micOk : Bool) :
    List InterviewStatus :=
  match status with
  | .recording => []
  | .waitingForUser => if micOk then [InterviewStatus.recording] else []
  | _ => []

/-- Status trace of the recognition onend callback (source lines
151-158): with a transcript it only sets finalAnswer (submission
happens in a later step), otherwise it returns to waiting_for_user. -/
def recognitionEndTrace (transcript : String) : List InterviewStatus :=
  if transcript = "" then [InterviewStatus.waitingForUser] else []

/-- Status trace of the recognition onerror callback (source lines
160-164). -/
def recognitionErrorTrace : List InterviewStatus :=
  [InterviewStatus.waitingForUser]

/-- Status trace of the audio source onended callback (source lines
204-207). -/
def audioEndedTrace : List InterviewStatus :=
  [InterviewStatus.waitingForUser]

/-- Status trace of handleEndInterview (source lines 385-387). -/
def endInterviewTrace : List InterviewStatus :=
  [InterviewStatus.finished]

/-- Conversation history parts: a user utterance or the serialised
model turn data. -/
inductive HistoryPart where
  | userText (text : String)
  | modelTurnData (feedback : String) (score : Nat)
      (nextQuestion : Option String)
deriving DecidableEq

/-- One entry of conversationHistoryRef. -/
structure HistoryEntry where
  role : String
  part : HistoryPart
deriving DecidableEq

/-- The InterviewScreen component state relevant to the claims. -/
structure ICState where
  status : InterviewStatus
  turns : List Turn
  conversationHistory : List HistoryEntry
  finalAnswer : Option String
deriving DecidableEq

/-- Outcome of the follow-up AI request of handleAnswerSubmit: parsed
feedback, score and optional next question, or a failure. -/
inductive TurnOutcome where
  | ok (feedback : String) (score : Nat) (nextQuestion : Option String)
  | error
deriving DecidableEq

/-- Model of handleAnswerSubmit (source lines 245-294).  Returns none
when the code would throw before reaching the try block (reading the
id of the last turn of an empty list); otherwise returns the new
component state, the number of AI requests issued, and the status
trace.  For a blank answer the function resets the status and returns
without touching anything else (the finally block belongs to the try
statement and is skipped). -/
def handleAnswerSubmitFull (s : ICState) (answer : String) (now : Int)
    (o : TurnOutcome) (sp : SpeakOutcome) :
    Option (ICState × Nat × List InterviewStatus) :=
  if jsTrim answer.data = [] then
    some ({ s with status := .waitingForUser }, 0,
      [InterviewStatus.waitingForUser])
  else
    match s.turns.getLast? with
    | none => none
    | some lastTurn =>
        let turnsWithAnswer := s.turns.map fun t =>
          if t.id = lastTurn.id then { t with answer := some answer } else t
        let updatedHistory :=
          s.conversationHistory ++ [⟨"user", HistoryPart.userText answer⟩]
        match o with
        | .error =>
            some ({ s with
                      status := .waitingForUser
                      turns := turnsWithAnswer
                      finalAnswer := none }, 1,
              [InterviewStatus.processingAnswer,
                InterviewStatus.waitingForUser])
        | .ok fb sc nextQ =>
            let n := turnsWithAnswer.length - 1
            let withFeedback :=
              turnsWithAnswer.take n ++
                (match turnsWithAnswer.getLast? with
                 | some lt =>
                     [{ lt with feedback := some fb, score := some sc }]
                 | none => [])
            let newTurns :=
              match nextQ with
              | some q =>
                  withFeedback ++
                    [{ id := now, question := q, answer := none,
                       feedback := none, score := none }]
              | none => withFeedback
            let newHistory := updatedHistory ++
              [⟨"model", HistoryPart.modelTurnData fb sc nextQ⟩]
            let trace :=
              match nextQ with
              | some q =>
                  InterviewStatus.processingAnswer :: speakTextTrace q sp
              | none =>
                  [InterviewStatus.processingAnswer,
                    InterviewStatus.finished]
            some ({ status := (trace.getLast?).getD s.status
                    turns := newTurns
                    conversationHistory := newHistory
                    finalAnswer := none }, 1, trace)

/-- Successor in the straight-line chain of the claim:
starting, ai_speaking, waiting_for_user, recording,
processing_answer, finished. -/
def chainNext : InterviewStatus → Option InterviewStatus
  | .starting => some .aiSpeaking
  | .aiSpeaking => some .waitingForUser
  | .waitingForUser => some .recording
  | .recording => some .processingAnswer
  | .processingAnswer => some .finished
  | .finished => none

/-- Successor in the cycle the code actually follows on the happy
path: starting and recording step to processing_answer,
processing_answer to ai_speaking, ai_speaking to waiting_for_user,
waiting_for_user to recording. -/
def cycleNext : InterviewStatus → Option InterviewStatus
  | .starting => some .processingAnswer
  | .processingAnswer => some .aiSpeaking
  | .aiSpeaking => some .waitingForUser
  | .waitingForUser => some .recording
  | .recording => some .processingAnswer
  | .finished => none

/-- The consecutive transition pairs of a status trace begun at a
given status. -/
def transPairs : InterviewStatus → List InterviewStatus →
    List (InterviewStatus × InterviewStatus)
  | _, [] => []
  | start, a :: rest => (start, a) :: transPairs a rest

/-- A transition the code can take: a step of the happy-path cycle,
an error or retreat transition to waiting_for_user, or a termination
transition to finished. -/
def allowedStep (a b : InterviewStatus) : Prop :=
  cycleNext a = some b ∨ b = InterviewStatus.waitingForUser ∨
    b = InterviewStatus.finished

instance (a b : InterviewStatus) : Decidable (allowedStep a b) := by
  unfold allowedStep
  infer_instance

/-! ## Theorems -/

/-! ### Step lemmas for the retry loop -/

lemma run_success0 {ρ : Type} {outcomes : Nat → CallOutcome ρ} {v : ρ}
    (h : outcomes 0 = .success v) :
    generateContentWithRetry outcomes = ⟨.success v, 1, []⟩ := by
  simp [generateContentWithRetry, MAX_RETRIES, retryAux, h]

lemma run_fail0_nonrl {ρ : Type} {outcomes : Nat → CallOutcome ρ} {e : String}
    (h : outcomes 0 = .failure e) (hr : isRateLimitError e = false) :
    generateContentWithRetry outcomes = ⟨.failure e, 1, []⟩ := by
  simp [generateContentWithRetry, MAX_RETRIES, retryAux, h, hr]

lemma run_fail0_rl {ρ : Type} {outcomes : Nat → CallOutcome ρ} {e : String}
    (h : outcomes 0 = .failure e) (hr : isRateLimitError e = true) :
    generateContentWithRetry outcomes =
      ⟨(retryAux outcomes 1 2).result, (retryAux outcomes 1 2).calls + 1,
        1000 :: (retryAux outcomes 1 2).delays⟩ := by
  simp [generateContentWithRetry, MAX_RETRIES, retryAux, h, hr,
    INITIAL_DELAY_MS]

lemma aux1_success {ρ : Type} {outcomes : Nat → CallOutcome ρ} {v : ρ}
    (h : outcomes 1 = .success v) :
    retryAux outcomes 1 2 = ⟨.success v, 1, []⟩ := by
  simp [retryAux, h]

lemma aux1_fail_nonrl {ρ : Type} {outcomes : Nat → CallOutcome ρ} {e : String}
    (h : outcomes 1 = .failure e) (hr : isRateLimitError e = false) :
    retryAux outcomes 1 2 = ⟨.failure e, 1, []⟩ := by
  simp [retryAux, h, hr, MAX_RETRIES]

lemma aux1_fail_rl {ρ : Type} {outcomes : Nat → CallOutcome ρ} {e : String}
    (h : outcomes 1 = .failure e) (hr : isRateLimitError e = true) :
    retryAux outcomes 1 2 =
      ⟨(retryAux outcomes 2 1).result, (retryAux outcomes 2 1).calls + 1,
        2000 :: (retryAux outcomes 2 1).delays⟩ := by
  simp [retryAux, h, hr, MAX_RETRIES, INITIAL_DELAY_MS]

lemma aux2_success {ρ : Type} {outcomes : Nat → CallOutcome ρ} {v : ρ}
    (h : outcomes 2 = .success v) :
    retryAux outcomes 2 1 = ⟨.success v, 1, []⟩ := by
  simp [retryAux, h]

lemma aux2_fail {ρ : Type} {outcomes : Nat → CallOutcome ρ} {e : String}
    (h : outcomes 2 = .failure e) :
    retryAux outcomes 2 1 = ⟨.failure e, 1, []⟩ := by
  rcases hr : isRateLimitError e <;> simp [retryAux, h, hr, MAX_RETRIES]

/-- Claim C1: For every request, generateContentWithRetry returns the
result of the first call that succeeds; a call failing with an error
that is not rate limited (its string form contains neither 429 nor
RESOURCE_EXHAUSTED) is rethrown immediately with no further call; and
if every call fails rate limited, exactly MAX_RETRIES = 3 calls are
made and the last rate-limit error is rethrown. -/
theorem generateContentWithRetry_correct {ρ : Type}
    (outcomes : Nat → CallOutcome ρ) :
    (∀ k, k < MAX_RETRIES →
      (∀ j, j < k → isRateLimitedOutcome (outcomes j) = true) →
      ∀ v, outcomes k = .success v →
      (generateContentWithRetry outcomes).result = .success v ∧
      (generateContentWithRetry outcomes).calls = k + 1) ∧
    (∀ k, k < MAX_RETRIES →
      (∀ j, j < k → isRateLimitedOutcome (outcomes j) = true) →
      ∀ e, outcomes k = .failure e → isRateLimitError e = false →
      (generateContentWithRetry outcomes).result = .failure e ∧
      (generateContentWithRetry outcomes).calls = k + 1) ∧
    ((∀ j, j < MAX_RETRIES → isRateLimitedOutcome (outcomes j) = true) →
      (generateContentWithRetry outcomes).calls = MAX_RETRIES ∧
      (generateContentWithRetry outcomes).result = outcomes (MAX_RETRIES - 1)) := by
  have getfail : ∀ j, isRateLimitedOutcome (outcomes j) = true →
      ∃ e, outcomes j = .failure e ∧ isRateLimitError e = true := by
    intro j hj
    rcases h : outcomes j with v | e
    · rw [h] at hj; simp [isRateLimitedOutcome] at hj
    · rw [h] at hj; exact ⟨e, rfl, hj⟩
  refine ⟨?_, ?_, ?_⟩
  · intro k hk hprev v hv
    have hk3 : k < 3 := hk
    interval_cases k
    · rw [run_success0 hv]; exact ⟨rfl, rfl⟩
    · obtain ⟨e0, h0, hr0⟩ := getfail 0 (hprev 0 (by norm_num))
      rw [run_fail0_rl h0 hr0, aux1_success hv]; exact ⟨rfl, rfl⟩
    · obtain ⟨e0, h0, hr0⟩ := getfail 0 (hprev 0 (by norm_num))
      obtain ⟨e1, h1, hr1⟩ := getfail 1 (hprev 1 (by norm_num))
      rw [run_fail0_rl h0 hr0, aux1_fail_rl h1 hr1, aux2_success hv]
      exact ⟨rfl, rfl⟩
  · intro k hk hprev e hv hr
    have hk3 : k < 3 := hk
    interval_cases k
    · rw [run_fail0_nonrl hv hr]; exact ⟨rfl, rfl⟩
    · obtain ⟨e0, h0, hr0⟩ := getfail 0 (hprev 0 (by norm_num))
      rw [run_fail0_rl h0 hr0, aux1_fail_nonrl hv hr]; exact ⟨rfl, rfl⟩
    · obtain ⟨e0, h0, hr0⟩ := getfail 0 (hprev 0 (by norm_num))
      obtain ⟨e1, h1, hr1⟩ := getfail 1 (hprev 1 (by norm_num))
      rw [run_fail0_rl h0 hr0, aux1_fail_rl h1 hr1, aux2_fail hv]
      exact ⟨rfl, rfl⟩
  · intro hall
    obtain ⟨e0, h0, hr0⟩ := getfail 0 (hall 0 (by norm_num [MAX_RETRIES]))
    obtain ⟨e1, h1, hr1⟩ := getfail 1 (hall 1 (by norm_num [MAX_RETRIES]))
    obtain ⟨e2, h2, hr2⟩ := getfail 2 (hall 2 (by norm_num [MAX_RETRIES]))
    rw [run_fail0_rl h0 hr0, aux1_fail_rl h1 hr1, aux2_fail h2]
    exact ⟨rfl, by simp [MAX_RETRIES, h2]⟩

/-- Witness for C1: on a concrete outcome sequence whose first call is
rate limited and whose second call succeeds, the wrapper returns the
second call result after exactly two calls. -/
theorem generateContentWithRetry_correct_witness :
    (generateContentWithRetry exOutcomes).result = .success 42 ∧
    (generateContentWithRetry exOutcomes).calls = 2 := by
  have h := (generateContentWithRetry_correct exOutcomes).1 1
    (by norm_num [MAX_RETRIES])
    (by intro j hj; interval_cases j; decide)
    42 rfl
  exact h

/-- Claim C2: In generateContentWithRetry the delay slept before the
k-th retry (k = 1, 2, ...) is INITIAL_DELAY_MS * 2 ^ (k - 1)
milliseconds, i.e. the 0-based i-th recorded delay is 1000 * 2 ^ i
(1000 ms then 2000 ms), so the delay doubles with each successive
rate-limited attempt, and the number of calls is capped at
MAX_RETRIES = 3. -/
theorem retry_backoff_delays {ρ : Type} (outcomes : Nat → CallOutcome ρ) :
    (generateContentWithRetry outcomes).delays =
      (List.range (generateContentWithRetry outcomes).delays.length).map
        (fun i => INITIAL_DELAY_MS * 2 ^ i) ∧
    (generateContentWithRetry outcomes).delays.length < MAX_RETRIES ∧
    (generateContentWithRetry outcomes).calls ≤ MAX_RETRIES := by
  rcases h0 : outcomes 0 with v0 | e0
  · rw [run_success0 h0]
    norm_num [MAX_RETRIES, INITIAL_DELAY_MS, List.range_succ]
  · rcases hr0 : isRateLimitError e0
    · rw [run_fail0_nonrl h0 hr0]
      norm_num [MAX_RETRIES, INITIAL_DELAY_MS, List.range_succ]
    · rw [run_fail0_rl h0 hr0]
      rcases h1 : outcomes 1 with v1 | e1
      · rw [aux1_success h1]
        norm_num [MAX_RETRIES, INITIAL_DELAY_MS, List.range_succ]
      · rcases hr1 : isRateLimitError e1
        · rw [aux1_fail_nonrl h1 hr1]
          norm_num [MAX_RETRIES, INITIAL_DELAY_MS, List.range_succ]
        · rw [aux1_fail_rl h1 hr1]
          rcases h2 : outcomes 2 with v2 | e2
          · rw [aux2_success h2]
            norm_num [MAX_RETRIES, INITIAL_DELAY_MS, List.range_succ]
          · rw [aux2_fail h2]
            norm_num [MAX_RETRIES, INITIAL_DELAY_MS, List.range_succ]

lemma int16View_length : ∀ data : List Nat,
    (int16View data).length = data.length / 2
  | [] => by simp [int16View]
  | [_] => by simp [int16View]
  | _ :: _ :: rest => by
      simp only [int16View, List.length_cons]
      rw [int16View_length rest]
      omega

lemma int16View_getD : ∀ (data : List Nat) (j : Nat),
    j < (int16View data).length →
    (int16View data).getD j 0 =
      toInt16 (data.getD (2 * j) 0) (data.getD (2 * j + 1) 0)
  | [], j, h => by simp [int16View] at h
  | [_], j, h => by simp [int16View] at h
  | lo :: hi :: rest, 0, _ => by simp [int16View]
  | lo :: hi :: rest, j + 1, h => by
      have h9 : j < (int16View rest).length := by
        simpa [int16View] using h
      have e1 : (lo :: hi :: rest).getD (2 * (j + 1)) 0 =
          rest.getD (2 * j) 0 := by
        have h2 : 2 * (j + 1) = 2 * j + 1 + 1 := by omega
        rw [h2, List.getD_cons_succ, List.getD_cons_succ]
      have e2 : (lo :: hi :: rest).getD (2 * (j + 1) + 1) 0 =
          rest.getD (2 * j + 1) 0 := by
        have h2 : 2 * (j + 1) + 1 = 2 * j + 1 + 1 + 1 := by omega
        rw [h2, List.getD_cons_succ, List.getD_cons_succ]
      rw [e1, e2]
      show (toInt16 lo hi :: int16View rest).getD (j + 1) 0 = _
      rw [List.getD_cons_succ]
      exact int16View_getD rest j h9

lemma toInt16_bounds (lo hi : Nat) (hlo : lo < 256) (hhi : hi < 256) :
    -32768 ≤ toInt16 lo hi ∧ toInt16 lo hi < 32768 := by
  simp only [toInt16]
  split <;> omega

lemma getD_byte_lt {data : List Nat} (hbytes : ∀ b ∈ data, b < 256)
    (n : Nat) : data.getD n 0 < 256 := by
  rcases Nat.lt_or_ge n data.length with h | h
  · rw [List.getD_eq_getElem _ _ h]
    exact hbytes _ (List.getElem_mem h)
  · rw [List.getD_eq_default _ _ h]
    norm_num

/-- Claim C5: For every byte payload whose length is a multiple of
2 * numChannels (bytes below 256, at least one channel),
decodeAudioData produces a buffer with
frameCount = (byte length / 2) / numChannels frames where the sample
of channel c at frame i is the signed 16-bit little-endian value at
interleaved index i * numChannels + c divided by 32768, a value in
[-1, 1); and decode maps each character of the base64-decoded string
to its character code. -/
theorem decodeAudioData_correct (data : List Nat) (sr nc : Nat)
    (hnc : 0 < nc) (hlen : data.length % (2 * nc) = 0)
    (hbytes : ∀ b ∈ data, b < 256) :
    (decodeAudioData data sr nc).frameCount = data.length / 2 / nc ∧
    (decodeAudioData data sr nc).numberOfChannels = nc ∧
    (∀ c i, c < nc → i < (decodeAudioData data sr nc).frameCount →
      (decodeAudioData data sr nc).getChannelData c i =
        (toInt16 (data.getD (2 * (i * nc + c)) 0)
          (data.getD (2 * (i * nc + c) + 1) 0) : ℚ) / 32768 ∧
      -1 ≤ (decodeAudioData data sr nc).getChannelData c i ∧
      (decodeAudioData data sr nc).getChannelData c i < 1) ∧
    (∀ (atob : String → List Char) (b64 : String),
      (decode atob b64).length = (atob b64).length ∧
      ∀ i, i < (atob b64).length →
        (decode atob b64).getD i 0 =
          ((atob b64).getD i (Char.ofNat 0)).toNat) := by
  have hfc : (decodeAudioData data sr nc).frameCount =
      data.length / 2 / nc := by
    simp [decodeAudioData, int16View_length]
  refine ⟨hfc, rfl, ?_, ?_⟩
  · intro c i hc hi
    have hi2 : i < (int16View data).length / nc := by
      rw [hfc] at hi
      rw [int16View_length]
      exact hi
    have hidx : i * nc + c < (int16View data).length := by
      have h1 : i * nc + c < (i + 1) * nc := by
        rw [Nat.succ_mul]
        omega
      have h2 : (i + 1) * nc ≤ ((int16View data).length / nc) * nc := by
        exact Nat.mul_le_mul_right nc hi2
      have h3 : ((int16View data).length / nc) * nc ≤
          (int16View data).length := Nat.div_mul_le_self _ _
      omega
    have hval : (decodeAudioData data sr nc).getChannelData c i =
        ((int16View data).getD (i * nc + c) 0 : ℚ) / 32768 := by
      simp only [decodeAudioData]
      rw [if_pos]
      constructor
      · exact hc
      · rw [int16View_length] at hi2 ⊢
        exact hi2
    rw [hval, int16View_getD data (i * nc + c) hidx]
    have hb := toInt16_bounds (data.getD (2 * (i * nc + c)) 0)
      (data.getD (2 * (i * nc + c) + 1) 0)
      (getD_byte_lt hbytes _) (getD_byte_lt hbytes _)
    have hcast1 : (-32768 : ℚ) ≤
        ((toInt16 (data.getD (2 * (i * nc + c)) 0)
          (data.getD (2 * (i * nc + c) + 1) 0) : ℤ) : ℚ) := by
      exact_mod_cast hb.1
    have hcast2 : ((toInt16 (data.getD (2 * (i * nc + c)) 0)
          (data.getD (2 * (i * nc + c) + 1) 0) : ℤ) : ℚ) < 32768 := by
      exact_mod_cast hb.2
    refine ⟨rfl, ?_, ?_⟩
    · rw [le_div_iff (by norm_num : (0 : ℚ) < 32768)]
      linarith
    · rw [div_lt_one (by norm_num : (0 : ℚ) < 32768)]
      exact hcast2
  · intro atob b64
    constructor
    · simp [decode]
    · intro i hi
      simp [decode, List.getD_eq_getElem?_getD, List.getElem?_map, hi,
        List.getElem?_eq_getElem]

/-- Witness for C5: the four-byte payload 0, 0, 0, 128 with one
channel decodes to two frames whose second sample is the 16-bit value
-32768 scaled to -1. -/
theorem decodeAudioData_correct_witness :
    (decodeAudioData [0, 0, 0, 128] 24000 1).frameCount = 2 ∧
    (decodeAudioData [0, 0, 0, 128] 24000 1).getChannelData 0 1 = -1 := by
  have h := decodeAudioData_correct [0, 0, 0, 128] 24000 1
    (by norm_num) (by norm_num) (by decide)
  have hfc : (decodeAudioData [0, 0, 0, 128] 24000 1).frameCount = 2 := by
    rw [h.1]
    norm_num
  refine ⟨hfc, ?_⟩
  have h2 := h.2.2.1 0 1 (by norm_num) (by rw [hfc]; norm_num)
  rw [h2.1]
  norm_num [toInt16]

lemma foldl_pushTurn : ∀ (turns : List Turn) (acc : List TranscriptMessage),
    turns.foldl pushTurn acc = acc ++ (turns.map turnMessages).join
  | [], acc => by simp
  | t :: ts, acc => by
      rw [List.foldl_cons, foldl_pushTurn ts]
      rcases h : t.answer with _ | a <;>
        simp [pushTurn, turnMessages, h, List.append_assoc]

/-- Claim C6: The final transcript assembled by handleEndInterview
contains, for each turn in order, one message with speaker ai and the
question text, followed by one message with speaker user and the
answer text exactly when the turn has an answer, and no other
messages: it is the concatenation of those per-turn blocks. -/
theorem assembleFinalTranscript_structure (turns : List Turn) :
    assembleFinalTranscript turns =
      (turns.map (fun turn =>
        (⟨turn.id, Speaker.ai, turn.question⟩ : TranscriptMessage) ::
          (match turn.answer with
           | some a => [(⟨turn.id + 1, Speaker.user, a⟩ : TranscriptMessage)]
           | none => []))).join := by
  rw [assembleFinalTranscript, foldl_pushTurn]
  rfl

/-- Claim C9: handleEndInterview invokes onInterviewEnd exactly once on
every execution: with the parsed feedback when the request succeeds
and otherwise with a fallback whose overallScore is 0 and whose three
lists are non-empty placeholders; in both cases the same assembled
transcript is passed. -/
theorem handleEndInterview_invokes_once (turns : List Turn)
    (o : FeedbackRequestOutcome) :
    (handleEndInterviewCalls turns o).length = 1 ∧
    (∀ call ∈ handleEndInterviewCalls turns o,
      call.1 = assembleFinalTranscript turns ∧
      call.2 = (match o with
                | .parsed f => f
                | .failed => fallbackFeedback)) ∧
    fallbackFeedback.overallScore = 0 ∧
    fallbackFeedback.strengths ≠ [] ∧
    fallbackFeedback.areasForImprovement ≠ [] ∧
    fallbackFeedback.actionableTips ≠ [] := by
  rcases o with f | _ <;>
    simp [handleEndInterviewCalls, fallbackFeedback]

/-- Witness for C9: on an empty interview with a failed feedback
request, exactly one invocation happens and it carries the fallback
feedback. -/
theorem handleEndInterview_invokes_once_witness :
    (handleEndInterviewCalls [] .failed).length = 1 ∧
    ∀ call ∈ handleEndInterviewCalls [] .failed,
      call.2 = fallbackFeedback := by
  have h := handleEndInterview_invokes_once [] .failed
  exact ⟨h.1, fun call hc => ((h.2.1 call hc).2 : _)⟩

/-- Claim C4: For every prior stored list, a successful handleSave
leaves the stored list an extension of the old one: every previously
stored report is still present, unchanged and in its previous
relative order (the old list is a contiguous suffix of the new one),
and exactly one new report, carrying the current feedback, transcript
and timestamp, has been added. -/
theorem handleSave_append_only (fb : InterviewFeedback)
    (tr : List TranscriptMessage) (rid ts : String)
    (old : List SavedReport) :
    (∀ r ∈ old, r ∈ handleSave fb tr rid ts (some old)) ∧
    old <:+ handleSave fb tr rid ts (some old) ∧
    (handleSave fb tr rid ts (some old)).length = old.length + 1 ∧
    handleSave fb tr rid ts (some old) =
      (⟨rid, fb, tr, ts⟩ : SavedReport) :: old := by
  refine ⟨?_, ?_, ?_, rfl⟩
  · intro r hr
    exact List.mem_cons_of_mem _ hr
  · exact ⟨[⟨rid, fb, tr, ts⟩], rfl⟩
  · simp [handleSave]

/-- Witness for C4: saving into an empty stored list yields exactly
the one-report list. -/
theorem handleSave_append_only_witness :
    handleSave fallbackFeedback [] "report-1" "2026-01-01" (some []) =
      [⟨"report-1", fallbackFeedback, [], "2026-01-01"⟩] := by
  exact (handleSave_append_only fallbackFeedback [] "report-1"
    "2026-01-01" []).2.2.2

lemma appInv_initial : AppInv initialAppState := by
  refine ⟨?_, ?_, ?_⟩ <;> intro h <;>
    simp [initialAppState] at h

lemma appInv_step (s : AppState) (e : AppEvent) (h : AppInv s) :
    AppInv (appStep s e) := by
  obtain ⟨h1, h2, h3⟩ := h
  rcases hs : s.interviewState <;> cases e <;>
    simp_all [appStep, AppInv, handleGetStarted, handleLanguageSelect,
      handleRoleSelect, handleLevelSelect, handleInterviewEnd,
      handleRestart] <;>
    (try (split <;> simp_all))

lemma appInv_foldl (events : List AppEvent) :
    ∀ s : AppState, AppInv s → AppInv (events.foldl appStep s) := by
  induction events with
  | nil => intro s h; exact h
  | cons e rest ih =>
      intro s h
      exact ih (appStep s e) (appInv_step s e h)

/-- Claim C7: The App walks the selection steps in the fixed order
welcome, language-select, role-select, level-select, in-progress:
each selection handler stores the chosen value and advances to
exactly the next step, and in every state reachable from the initial
state the in-progress step has a language, role and level selected. -/
theorem app_selection_flow :
    (∀ s : AppState, s.interviewState = .welcome →
      (appStep s .getStarted).interviewState = .languageSelect) ∧
    (∀ (s : AppState) (l : LanguageCode),
      s.interviewState = .languageSelect →
      (appStep s (.selectLanguage l)).selectedLanguage = some l ∧
      (appStep s (.selectLanguage l)).interviewState = .roleSelect) ∧
    (∀ (s : AppState) (r : JobRole), s.interviewState = .roleSelect →
      (appStep s (.selectRole r)).selectedRole = some r ∧
      (appStep s (.selectRole r)).interviewState = .levelSelect) ∧
    (∀ (s : AppState) (v : ExperienceLevel),
      s.interviewState = .levelSelect →
      (appStep s (.selectLevel v)).selectedLevel = some v ∧
      (appStep s (.selectLevel v)).interviewState = .inProgress) ∧
    (∀ events : List AppEvent,
      (runApp events).interviewState = .inProgress →
      (runApp events).selectedLanguage.isSome ∧
      (runApp events).selectedRole.isSome ∧
      (runApp events).selectedLevel.isSome) := by
  refine ⟨?_, ?_, ?_, ?_, ?_⟩
  · intro s hs
    simp [appStep, hs, handleGetStarted]
  · intro s l hs
    constructor <;> simp [appStep, hs, handleLanguageSelect]
  · intro s r hs
    constructor <;> simp [appStep, hs, handleRoleSelect]
  · intro s v hs
    constructor <;> simp [appStep, hs, handleLevelSelect]
  · intro events hs
    have h := appInv_foldl events initialAppState appInv_initial
    exact ⟨h.1 (Or.inr (Or.inr hs)), h.2.1 (Or.inr hs), h.2.2 hs⟩

/-- Witness for C7: after the four selection events the App is in
progress with all three selections stored. -/
theorem app_selection_flow_witness :
    (runApp [.getStarted, .selectLanguage .enUS,
      .selectRole .softwareEngineer,
      .selectLevel .entryLevel]).interviewState = .inProgress ∧
    (runApp [.getStarted, .selectLanguage .enUS,
      .selectRole .softwareEngineer,
      .selectLevel .entryLevel]).selectedLanguage.isSome ∧
    (runApp [.getStarted, .selectLanguage .enUS,
      .selectRole .softwareEngineer,
      .selectLevel .entryLevel]).selectedRole.isSome ∧
    (runApp [.getStarted, .selectLanguage .enUS,
      .selectRole .softwareEngineer,
      .selectLevel .entryLevel]).selectedLevel.isSome := by
  have hs : (runApp [.getStarted, .selectLanguage .enUS,
      .selectRole .softwareEngineer,
      .selectLevel .entryLevel]).interviewState = .inProgress := by
    decide
  have h := (app_selection_flow).2.2.2.2
    [.getStarted, .selectLanguage .enUS, .selectRole .softwareEngineer,
      .selectLevel .entryLevel] hs
  exact ⟨hs, h⟩

/-- Claim C10: handleRestart resets the entire App state: afterwards
the selected language, role and level and the feedback are all none,
the final transcript is empty, and the interview state is welcome,
whatever state it was called from. -/
theorem handleRestart_resets (s : AppState) :
    (handleRestart s).selectedLanguage = none ∧
    (handleRestart s).selectedRole = none ∧
    (handleRestart s).selectedLevel = none ∧
    (handleRestart s).feedback = none ∧
    (handleRestart s).finalTranscript = [] ∧
    (handleRestart s).interviewState = .welcome := by
  refine ⟨rfl, rfl, rfl, rfl, rfl, rfl⟩

/-- Counterexample to C3 as stated: on mount, startInterview runs
with the status at starting and its first setStatus call moves the
status to processing_answer, not to the chain successor ai_speaking
of starting. -/
theorem interview_status_chain_cex :
    (InterviewStatus.starting, InterviewStatus.processingAnswer) ∈
      transPairs InterviewStatus.starting
        (startInterviewTrace
          (StartOutcome.ok "Tell me about yourself." .audioPlays)) ∧
    chainNext InterviewStatus.starting ≠
      some InterviewStatus.processingAnswer := by
  decide

lemma submit_trace_cases (s : ICState) (answer : String) (now : Int)
    (o : TurnOutcome) (sp : SpeakOutcome)
    (r : ICState × Nat × List InterviewStatus)
    (hr : handleAnswerSubmitFull s answer now o sp = some r) :
    r.2.2 = [InterviewStatus.waitingForUser] ∨
    r.2.2 = [InterviewStatus.processingAnswer,
      InterviewStatus.waitingForUser] ∨
    r.2.2 = [InterviewStatus.processingAnswer,
      InterviewStatus.finished] ∨
    r.2.2 = [InterviewStatus.processingAnswer] ∨
    r.2.2 = [InterviewStatus.processingAnswer,
      InterviewStatus.aiSpeaking] ∨
    r.2.2 = [InterviewStatus.processingAnswer,
      InterviewStatus.aiSpeaking, InterviewStatus.waitingForUser] := by
  unfold handleAnswerSubmitFull at hr
  split at hr
  · obtain rfl := (Option.some.injEq _ _).mp hr
    left; rfl
  · rcases hl : s.turns.getLast? with _ | lastTurn
    · rw [hl] at hr; exact absurd hr (by simp)
    · rw [hl] at hr
      rcases o with ⟨fb, sc, nextQ⟩ | _
      · rcases nextQ with _ | q
        · simp only at hr
          obtain rfl := (Option.some.injEq _ _).mp hr
          right; right; left; rfl
        · simp only at hr
          obtain rfl := (Option.some.injEq _ _).mp hr
          by_cases hq : q = ""
          · right; right; right; left
            simp [speakTextTrace, hq]
          · rcases sp with _ | _ | _
            · right; right; right; right; left
              simp [speakTextTrace, hq]
            · right; right; right; right; right
              simp [speakTextTrace, hq]
            · right; right; right; right; right
              simp [speakTextTrace, hq]
      · simp only at hr
        obtain rfl := (Option.some.injEq _ _).mp hr
        right; left; rfl

/-- Claim C3, amended: Every transition taken by the step functions of
InterviewScreen either follows the happy-path cycle starting to
processing_answer to ai_speaking to waiting_for_user to recording
and back to processing_answer, or is an error or retreat transition
to waiting_for_user, or a termination transition to finished:
startInterview runs from starting, the answer submission triggered by
a transcribed answer runs from recording, and the remaining steps and
callbacks can fire from any status. -/
theorem interview_status_transitions :
    (∀ o : StartOutcome,
      ∀ p ∈ transPairs InterviewStatus.starting (startInterviewTrace o),
        allowedStep p.1 p.2) ∧
    (∀ (s : ICState) (answer : String) (now : Int) (o : TurnOutcome)
        (sp : SpeakOutcome) (r : ICState × Nat × List InterviewStatus),
      handleAnswerSubmitFull s answer now o sp = some r →
      ∀ p ∈ transPairs InterviewStatus.recording r.2.2,
        allowedStep p.1 p.2) ∧
    (∀ (st : InterviewStatus) (micOk : Bool),
      ∀ p ∈ transPairs st (toggleRecordingTrace st micOk),
        allowedStep p.1 p.2) ∧
    (∀ (st : InterviewStatus) (transcript : String),
      ∀ p ∈ transPairs st (recognitionEndTrace transcript),
        allowedStep p.1 p.2) ∧
    (∀ st : InterviewStatus,
      ∀ p ∈ transPairs st recognitionErrorTrace, allowedStep p.1 p.2) ∧
    (∀ st : InterviewStatus,
      ∀ p ∈ transPairs st audioEndedTrace, allowedStep p.1 p.2) ∧
    (∀ st : InterviewStatus,
      ∀ p ∈ transPairs st endInterviewTrace, allowedStep p.1 p.2) := by
  refine ⟨?_, ?_, ?_, ?_, ?_, ?_, ?_⟩
  · rintro (⟨q, sp⟩ | _) p hp
    · by_cases hq : q = ""
      · simp [startInterviewTrace, speakTextTrace, hq, transPairs] at hp
        subst hp; decide
      · rcases sp with _ | _ | _
        · simp [startInterviewTrace, speakTextTrace, hq, transPairs] at hp
          obtain rfl | rfl := hp <;> decide
        · simp [startInterviewTrace, speakTextTrace, hq, transPairs] at hp
          obtain rfl | rfl | rfl := hp <;> decide
        · simp [startInterviewTrace, speakTextTrace, hq, transPairs] at hp
          obtain rfl | rfl | rfl := hp <;> decide
    · simp [startInterviewTrace, transPairs] at hp
      obtain rfl | rfl := hp <;> decide
  · intro s answer now o sp r hr p hp
    rcases submit_trace_cases s answer now o sp r hr with
      h | h | h | h | h | h <;>
      (rw [h] at hp; simp [transPairs] at hp;
        (first
          | (obtain rfl | rfl | rfl := hp)
          | (obtain rfl | rfl := hp)
          | (obtain rfl := hp)) <;> decide)
  · intro st micOk p hp
    rcases st <;> rcases micOk <;>
      simp [toggleRecordingTrace, transPairs] at hp <;>
      (try subst hp) <;> (try decide) <;> exact absurd hp (by simp)
  · intro st transcript p hp
    by_cases ht : transcript = "" <;>
      simp [recognitionEndTrace, ht, transPairs] at hp
    subst hp
    right; left; rfl
  · intro st p hp
    simp [recognitionErrorTrace, transPairs] at hp
    subst hp
    right; left; rfl
  · intro st p hp
    simp [audioEndedTrace, transPairs] at hp
    subst hp
    right; left; rfl
  · intro st p hp
    simp [endInterviewTrace, transPairs] at hp
    subst hp
    right; right; rfl

/-- Witness for the amended C3: pressing the microphone button while
waiting for the user, with microphone access granted, takes the
allowed transition from waiting_for_user to recording. -/
theorem interview_status_transitions_witness :
    allowedStep InterviewStatus.waitingForUser InterviewStatus.recording := by
  exact interview_status_transitions.2.2.1 .waitingForUser true
    (InterviewStatus.waitingForUser, InterviewStatus.recording) (by decide)

lemma jsTrim_eq_nil_of_white {l : List Char}
    (h : ∀ c ∈ l, jsWhitespace c = true) : jsTrim l = [] := by
  unfold jsTrim
  have h1 : l.dropWhile jsWhitespace = [] := by
    rw [List.dropWhile_eq_nil_iff]
    exact h
  rw [h1]
  simp

/-- Claim C8: For every answer string that is empty or consists only of
whitespace, handleAnswerSubmit returns the status to waiting_for_user
and leaves the turns list and the conversation history unchanged,
making no AI request. -/
theorem handleAnswerSubmit_blank_noop (s : ICState) (answer : String)
    (now : Int) (o : TurnOutcome) (sp : SpeakOutcome)
    (hws : ∀ c ∈ answer.data, jsWhitespace c = true) :
    ∃ r, handleAnswerSubmitFull s answer now o sp = some r ∧
      r.1.status = InterviewStatus.waitingForUser ∧
      r.1.turns = s.turns ∧
      r.1.conversationHistory = s.conversationHistory ∧
      r.2.1 = 0 := by
  have hb : jsTrim answer.data = [] := jsTrim_eq_nil_of_white hws
  refine ⟨({ s with status := .waitingForUser }, 0,
    [InterviewStatus.waitingForUser]), ?_, rfl, rfl, rfl, rfl⟩
  simp [handleAnswerSubmitFull, hb]

/-- Witness for C8: a two-space answer in a concrete component state
is rejected without any change or AI request. -/
theorem handleAnswerSubmit_blank_noop_witness :
    ∃ r, handleAnswerSubmitFull
        ⟨InterviewStatus.waitingForUser, [], [], none⟩ "  " 0 .error
        .audioPlays = some r ∧
      r.1.status = InterviewStatus.waitingForUser ∧
      r.1.turns = [] ∧
      r.1.conversationHistory = [] ∧
      r.2.1 = 0 := by
  exact handleAnswerSubmit_blank_noop
    ⟨InterviewStatus.waitingForUser, [], [], none⟩ "  " 0 .error
    .audioPlays (by decide)

end InterviewTrainer
